import Mathlib

/-!
Verification of the hybrid language-detection engine
(`src/utils/hybridLanguageDetector.ts` and the `languageFilter` module).

Modelling conventions (shallow embedding):

* An input string is a `List Nat` of UTF-16 code units, matching how the
  source's regular expressions (written without the `u` flag) and
  `String.prototype.length` operate on JavaScript strings.
* JavaScript floating-point numbers are modelled as exact rationals `ℚ`;
  every numeric literal of the source (0.85, 0.75, 0.05, …) is the exact
  decimal rational.  All the thresholds compared in the source differ from
  the compared quantities by far more than double rounding error, so this
  abstraction is faithful for the properties proved here.
* Fallible asynchronous providers (the dynamic import of the FastText
  package, the model load, `model.identify`, and the Qwen LLM call
  `detectTextLanguageWithAI`) are modelled as `Except Unit`-valued
  behaviours supplied in an environment; a `.error` value models a
  throw/rejection.  `try { … } catch { … }` blocks of the source are
  modelled by matching on those `Except` values exactly where the source
  catches.
* The module-level mutable variables (`fastTextAvailable`,
  `fastTextModel`) are threaded as explicit state `DetState`.  The
  `fastTextLoading` / `fastTextLoadPromise` pair only matters for
  overlapping concurrent invocations; between sequential calls (the
  execution model used here) both are quiescent, so they are omitted.
  `DetState` also carries three instrumentation counters (`loadAttempts`,
  `llmCalls`, `ftCalls`) that count, respectively, executions of the
  model-loading block of `initFastText`, invocations of `detectWithLLM`,
  and invocations of `detectWithFastText`; they are write-only ghosts and
  never influence control flow.
* The optional human-readable `reasoning` string of `DetectionResult` is
  not modelled: no control flow depends on it.
-/

/-- The `SupportedLanguage` union type of the source. -/
inductive SupportedLanguage
  | en | de | fr | ja | es | zh
deriving DecidableEq, Repr

/-- The `method` field of `DetectionResult`. -/
inductive DetMethod
  | fasttext | charscan | llm | fallback
deriving DecidableEq, Repr

/-- `DetectionResult` of the source, minus the unmodelled `reasoning` string. -/
structure DetectionResult where
  language : SupportedLanguage
  confidence : ℚ
  method : DetMethod
deriving DecidableEq, Repr

/-- Membership of a code unit in the JavaScript `\s` class (also the set
stripped by `String.prototype.trim`): tab, LF, VT, FF, CR, space, NBSP,
Ogham space, the U+2000–U+200A spaces, line/paragraph separators, narrow
no-break space, medium mathematical space, ideographic space and the BOM. -/
def isJsWhitespace (c : Nat) : Bool :=
  [0x9, 0xA, 0xB, 0xC, 0xD, 0x20, 0xA0, 0x1680,
   0x2028, 0x2029, 0x202F, 0x205F, 0x3000, 0xFEFF].contains c
  || (0x2000 ≤ c && c ≤ 0x200A)

/-- The regex class `[一-龥]` (`LANGUAGE_PATTERNS.chinese`). -/
def isChineseChar (c : Nat) : Bool :=
  0x4E00 ≤ c && c ≤ 0x9FA5

/-- The regex class `[぀-ゟ゠-ヿ]` (`LANGUAGE_PATTERNS.japanese`):
Hiragana or Katakana. -/
def isJapaneseChar (c : Nat) : Bool :=
  (0x3040 ≤ c && c ≤ 0x309F) || (0x30A0 ≤ c && c ≤ 0x30FF)

/-- The regex class `[äöüßÄÖÜ]` (`LANGUAGE_PATTERNS.german`). -/
def isGermanChar (c : Nat) : Bool :=
  [0xE4, 0xF6, 0xFC, 0xDF, 0xC4, 0xD6, 0xDC].contains c

/-- The regex class `[àâéèêëîïôùûüÿçœæÀÂÉÈÊËÎÏÔÙÛÜŸÇŒÆ]`
(`LANGUAGE_PATTERNS.french`). -/
def isFrenchChar (c : Nat) : Bool :=
  [0xE0, 0xE2, 0xE9, 0xE8, 0xEA, 0xEB, 0xEE, 0xEF, 0xF4, 0xF9, 0xFB, 0xFC,
   0xFF, 0xE7, 0x153, 0xE6,
   0xC0, 0xC2, 0xC9, 0xC8, 0xCA, 0xCB, 0xCE, 0xCF, 0xD4, 0xD9, 0xDB, 0xDC,
   0x178, 0xC7, 0x152, 0xC6].contains c

/-- The regex class `[ñ¿¡Ñ]` (`LANGUAGE_PATTERNS.spanish`). -/
def isSpanishChar (c : Nat) : Bool :=
  [0xF1, 0xBF, 0xA1, 0xD1].contains c

/-- The regex class `[áéíóúüÁÉÍÓÚÜ]` (`LANGUAGE_PATTERNS.spanishAccented`). -/
def isSpanishAccentedChar (c : Nat) : Bool :=
  [0xE1, 0xE9, 0xED, 0xF3, 0xFA, 0xFC, 0xC1, 0xC9, 0xCD, 0xD3, 0xDA, 0xDC].contains c

/-- The regex class of `LANGUAGE_PATTERNS.allAccented`: U+00C0–U+00DE minus
the multiplication sign U+00D7, U+00E0–U+00FF minus the division sign
U+00F7 (note: ß U+00DF is **not** in the source's character list), plus Ÿ. -/
def isAccentedChar (c : Nat) : Bool :=
  (0xC0 ≤ c && c ≤ 0xDE && c != 0xD7)
  || (0xE0 ≤ c && c ≤ 0xFF && c != 0xF7)
  || c == 0x178

/-- The character class of the English-detection regex
`^[a-zA-Z0-9\s.,!?;:'"()-]+$` in rule 7 of `quickLanguageDetection`. -/
def isBasicEnglishChar (c : Nat) : Bool :=
  (0x61 ≤ c && c ≤ 0x7A) || (0x41 ≤ c && c ≤ 0x5A) || (0x30 ≤ c && c ≤ 0x39)
  || [0x2E, 0x2C, 0x21, 0x3F, 0x3B, 0x3A, 0x27, 0x22, 0x28, 0x29, 0x2D].contains c
  || isJsWhitespace c

/-- `String.prototype.trim`: strip leading and trailing JS whitespace. -/
def jsTrim (t : List Nat) : List Nat :=
  ((t.dropWhile isJsWhitespace).reverse.dropWhile isJsWhitespace).reverse

/-- Helper for `wordCount`: the Boolean argument records whether the
previous code unit was inside a word. -/
def wordCountAux : List Nat → Bool → Nat
  | [], _ => 0
  | c :: rest, inWord =>
    if isJsWhitespace c then wordCountAux rest false
    else (if inWord then 0 else 1) + wordCountAux rest true

/-- The token count `text.trim().split(/\s+/).filter(w => w.length > 0).length`
used by `calculateLocalConfidence`: the number of maximal runs of
non-whitespace code units. -/
def wordCount (t : List Nat) : Nat := wordCountAux t false

/-- `CharStats` of `languageFilter.ts`. -/
structure CharStats where
  chinese : Nat
  japanese : Nat
  german : Nat
  french : Nat
  spanish : Nat
  accented : Nat
  total : Nat
deriving DecidableEq, Repr

/-- `scanCharacters` of `languageFilter.ts`: per-class counts of the regex
match counts plus `total = text.length`. -/
def scanCharacters (t : List Nat) : CharStats :=
  { chinese := t.countP isChineseChar
    japanese := t.countP isJapaneseChar
    german := t.countP isGermanChar
    french := t.countP isFrenchChar
    spanish := t.countP isSpanishChar
    accented := t.countP isAccentedChar
    total := t.length }

/-- `getCharStats` of `languageFilter.ts` (re-export of `scanCharacters`). -/
def getCharStats (t : List Nat) : CharStats := scanCharacters t

/-- Rule 1 of `quickLanguageDetection`: any Chinese character ⇒ `zh`. -/
def quickRule1 (stats : CharStats) : Option SupportedLanguage :=
  if 0 < stats.chinese then some .zh else none

/-- Rule 2 of `quickLanguageDetection`: any Japanese kana ⇒ `ja`. -/
def quickRule2 (stats : CharStats) : Option SupportedLanguage :=
  if 0 < stats.japanese then some .ja else none

/-- Rule 3 of `quickLanguageDetection`: Spanish-specific characters,
confirmed by the `/[ñÑ]/` or `/[¿¡]/` tests on the raw text. -/
def quickRule3 (stats : CharStats) (t : List Nat) : Option SupportedLanguage :=
  if 0 < stats.spanish then
    if t.any fun c => c == 0xF1 || c == 0xD1 then some .es
    else if t.any fun c => c == 0xBF || c == 0xA1 then some .es
    else none
  else none

/-- Rule 4 of `quickLanguageDetection`: only German-specific characters,
in sufficient count or proportion. -/
def quickRule4 (stats : CharStats) : Option SupportedLanguage :=
  if 0 < stats.german ∧ stats.french = 0 ∧ stats.spanish = 0 then
    if 2 ≤ stats.german ∨
        (0 < stats.total ∧ (0.05 : ℚ) < (stats.german : ℚ) / (stats.total : ℚ)) then
      some .de
    else none
  else none

/-- Rule 5 of `quickLanguageDetection`: only French-specific characters,
in sufficient count or proportion. -/
def quickRule5 (stats : CharStats) : Option SupportedLanguage :=
  if 0 < stats.french ∧ stats.german = 0 ∧ stats.spanish = 0 then
    if 2 ≤ stats.french ∨
        (0 < stats.total ∧ (0.05 : ℚ) < (stats.french : ℚ) / (stats.total : ℚ)) then
      some .fr
    else none
  else none

/-- Rule 6 of `quickLanguageDetection`: no `[ñ¿¡Ñ]` but at least two
Spanish accented vowels dominating the accented characters. -/
def quickRule6 (stats : CharStats) (t : List Nat) : Option SupportedLanguage :=
  if stats.spanish = 0 ∧ 0 < stats.accented then
    let spanishAccented := t.countP isSpanishAccentedChar
    if 2 ≤ spanishAccented then
      if (0.7 : ℚ) < (spanishAccented : ℚ) / (stats.accented : ℚ) then some .es
      else none
    else none
  else none

/-- Rule 7 of `quickLanguageDetection`: no special characters at all and
only basic ASCII letters/digits/punctuation ⇒ `en`. -/
def quickRule7 (stats : CharStats) (t : List Nat) : Option SupportedLanguage :=
  if stats.german = 0 ∧ stats.french = 0 ∧ stats.spanish = 0 ∧ stats.accented = 0 then
    if t ≠ [] ∧ t.all isBasicEnglishChar then some .en else none
  else none

/-- `quickLanguageDetection` of `languageFilter.ts`: the seven early-return
rules tried in order; the first rule that fires wins, and a rule that does
not fire falls through to the next one. -/
def quickLanguageDetection (stats : CharStats) (t : List Nat) : Option SupportedLanguage :=
  quickRule1 stats <|> quickRule2 stats <|> quickRule3 stats t <|>
  quickRule4 stats <|> quickRule5 stats <|> quickRule6 stats t <|>
  quickRule7 stats t

/-- `languageFilter` of `languageFilter.ts`. -/
def languageFilter (t : List Nat) : Option SupportedLanguage :=
  if jsTrim t = [] then none
  else if (jsTrim t).length < 2 then some .en
  else quickLanguageDetection (scanCharacters t) t

/-- The confidence computation of rule 3 of `detectWithCharScan` (the
`languageFilter` branch): base 0.75, raised by the density of the
language-specific characters. -/
def charScanFilterConfidence (filterResult : SupportedLanguage) (stats : CharStats) : ℚ :=
  if filterResult = .de ∧ 0 < stats.german then
    min 0.95 (0.75 + (stats.german : ℚ) / (stats.total : ℚ) * 0.2)
  else if filterResult = .fr ∧ 0 < stats.french then
    min 0.95 (0.75 + (stats.french : ℚ) / (stats.total : ℚ) * 0.2)
  else if filterResult = .es ∧ 0 < stats.spanish then
    min 0.95 (0.75 + (stats.spanish : ℚ) / (stats.total : ℚ) * 0.2)
  else if filterResult = .en then
    if stats.german = 0 ∧ stats.french = 0 ∧ stats.spanish = 0 ∧ stats.accented = 0 then
      0.8
    else 0.75
  else 0.75

/-- `detectWithCharScan` of `hybridLanguageDetector.ts`.  Rule 1 (kana ⇒
`ja`) and rule 2 (CJK without kana ⇒ `zh`) merge the source's nested guard
pair into one conjunction; when the outer guard holds but the inner one
fails the source also falls through to the next rule, so the two shapes
agree on every input.  Rule 3 consults `languageFilter` and returns only
above the 0.75 confidence bar. -/
def detectWithCharScan (t : List Nat) : Option DetectionResult :=
  let stats := getCharStats t
  if 0 < stats.japanese ∧
      ((0.05 : ℚ) < (stats.japanese : ℚ) / (stats.total : ℚ) ∨ 1 ≤ stats.japanese) then
    some ⟨.ja, min 0.98 (0.8 + (stats.japanese : ℚ) / (stats.total : ℚ) * 0.18), .charscan⟩
  else if 0 < stats.chinese ∧ stats.japanese = 0 ∧
      ((0.05 : ℚ) < (stats.chinese : ℚ) / (stats.total : ℚ) ∨ 1 ≤ stats.chinese) then
    some ⟨.zh, min 0.98 (0.8 + (stats.chinese : ℚ) / (stats.total : ℚ) * 0.18), .charscan⟩
  else
    match languageFilter t with
    | none => none
    | some filterResult =>
      let confidence := charScanFilterConfidence filterResult stats
      if (0.75 : ℚ) < confidence then some ⟨filterResult, confidence, .charscan⟩
      else none

/-- The tail of `calculateLocalConfidence` after the char-scan guard:
script evidence, then special-character density, then plain token count. -/
def localConfidenceBase (t : List Nat) : ℚ :=
  let stats := getCharStats t
  let wc := wordCount t
  if 0 < stats.japanese ∨ 0 < stats.chinese then 0.85
  else if 0 < stats.german ∨ 0 < stats.french ∨ 0 < stats.spanish then
    let specialCharCount := stats.german + stats.french + stats.spanish
    if (0.1 : ℚ) < (specialCharCount : ℚ) / (stats.total : ℚ) ∨ 2 ≤ specialCharCount then 0.8
    else 0.6
  else if 5 ≤ wc then 0.65
  else if 3 ≤ wc then 0.55
  else if wc ≤ 2 then 0.3
  else 0.5

/-- `calculateLocalConfidence` of `hybridLanguageDetector.ts`. -/
def calculateLocalConfidence (t : List Nat) (charScanResult : Option DetectionResult) : ℚ :=
  match charScanResult with
  | some r => if (0.8 : ℚ) < r.confidence then 0.85 else localConfidenceBase t
  | none => localConfidenceBase t

/-- `hybridLanguageDetectSync` of `hybridLanguageDetector.ts`: char scan
only, with the default-English fallback. -/
def hybridLanguageDetectSync (t : List Nat) : DetectionResult :=
  match detectWithCharScan t with
  | some r => r
  | none => ⟨.en, 0.5, .fallback⟩

/-- The outcome of `model.identify(text)`: `score` (`undefined` modelled as
`none`, read through `result.score || 0`) and `alpha2` (the optional
ISO 639-1 tag as UTF-16 code units, read through
`result.alpha2?.toLowerCase() || ''`). -/
structure IdentifyOutput where
  score : Option ℚ
  alpha2 : Option (List Nat)
deriving DecidableEq, Repr

/-- One call's behaviour of the FastText provider: the outcome of the
dynamic `import("fasttext.wasm.js")` (`.error` = the import throws,
`.ok b` = it resolves to a module of truthiness `b`), of the
`getLIDModel()` + `lidModel.load()` sequence, and of `model.identify`. -/
structure FastTextEnv where
  importResult : Except Unit Bool
  loadResult : Except Unit Unit
  identifyResult : Except Unit IdentifyOutput
deriving Repr

/-- The module-level mutable state of `hybridLanguageDetector.ts`
(`fastTextAvailable`, `fastTextModel`) plus three ghost counters used
only by the theorems: `loadAttempts` counts executions of the
model-loading block of `initFastText`, `llmCalls` counts invocations of
`detectWithLLM`, `ftCalls` counts invocations of `detectWithFastText`. -/
structure DetState where
  fastTextAvailable : Option Bool
  fastTextModel : Bool
  loadAttempts : Nat
  llmCalls : Nat
  ftCalls : Nat
deriving DecidableEq, Repr

/-- The state at module load: both singleton variables unset. -/
def initialDetState : DetState :=
  { fastTextAvailable := none, fastTextModel := false
    loadAttempts := 0, llmCalls := 0, ftCalls := 0 }

/-- `LANGUAGE_CODE_MAP` of `hybridLanguageDetector.ts`, keys as UTF-16
code units: `en`, `de`, `fr`, `ja`, `es`, `zh`, `zh-cn`, `zh-tw`. -/
def langCodeMap (tag : List Nat) : Option SupportedLanguage :=
  if tag = [0x65, 0x6E] then some .en
  else if tag = [0x64, 0x65] then some .de
  else if tag = [0x66, 0x72] then some .fr
  else if tag = [0x6A, 0x61] then some .ja
  else if tag = [0x65, 0x73] then some .es
  else if tag = [0x7A, 0x68] then some .zh
  else if tag = [0x7A, 0x68, 0x2D, 0x63, 0x6E] then some .zh
  else if tag = [0x7A, 0x68, 0x2D, 0x74, 0x77] then some .zh
  else none

/-- ASCII lowering of one code unit.  `String.prototype.toLowerCase`
performs full Unicode lowering, but every key of `LANGUAGE_CODE_MAP` is
ASCII and the only Unicode code point whose lowercase form is an ASCII
letter not already covered here is U+212A (→ `k`), which occurs in no
key, so ASCII lowering and full lowering give the same map lookups. -/
def asciiToLower (c : Nat) : Nat :=
  if 0x41 ≤ c ∧ c ≤ 0x5A then c + 0x20 else c

/-- The map key `result.alpha2?.toLowerCase() || ''`. -/
def alpha2Key (out : IdentifyOutput) : List Nat :=
  (out.alpha2.map fun tag => tag.map asciiToLower).getD []

/-- `checkFastTextAvailability` of `hybridLanguageDetector.ts`: memoised
capability probe.  The `catch` branch and the fall-through after a falsy
module both mark the adapter unavailable. -/
def checkFastTextAvailability (env : FastTextEnv) (s : DetState) : Bool × DetState :=
  match s.fastTextAvailable with
  | some b => (b, s)
  | none =>
    match env.importResult with
    | .ok true => (true, { s with fastTextAvailable := some true })
    | .ok false => (false, { s with fastTextAvailable := some false })
    | .error _ => (false, { s with fastTextAvailable := some false })

/-- `initFastText` of `hybridLanguageDetector.ts`.  `env.loadResult`
covers the whole loading block (second dynamic import, `getLIDModel()`
and `lidModel.load()`); its `catch` marks the adapter permanently
unavailable.  The model instance is abstracted to the Boolean
`fastTextModel` (loaded or not). -/
def initFastText (env : FastTextEnv) (s : DetState) : Option Unit × DetState :=
  let (available, s1) := checkFastTextAvailability env s
  if !available then (none, s1)
  else if s1.fastTextModel then (some (), s1)
  else
    let s2 := { s1 with loadAttempts := s1.loadAttempts + 1 }
    match env.loadResult with
    | .ok _ => (some (), { s2 with fastTextModel := true })
    | .error _ => (none, { s2 with fastTextAvailable := some false })

/-- `detectWithFastText` of `hybridLanguageDetector.ts`.  A throw from
`model.identify` is caught, marks the adapter unavailable and yields
`null`; a result is returned only above the 0.85 confidence bar and only
for a tag that `LANGUAGE_CODE_MAP` maps to a supported language (the
subsequent `includes` check of the source is then always true). -/
def detectWithFastText (env : FastTextEnv) (s : DetState) : Option DetectionResult × DetState :=
  let s0 := { s with ftCalls := s.ftCalls + 1 }
  let (available, s1) := checkFastTextAvailability env s0
  if !available then (none, s1)
  else
    let (model, s2) := initFastText env s1
    match model with
    | none => (none, s2)
    | some _ =>
      match env.identifyResult with
      | .error _ => (none, { s2 with fastTextAvailable := some false })
      | .ok out =>
        let confidence := (out.score).getD 0
        if (0.85 : ℚ) < confidence then
          match langCodeMap (alpha2Key out) with
          | some langCode => (some ⟨langCode, confidence, .fasttext⟩, s2)
          | none => (none, s2)
        else (none, s2)

/-- `detectWithLLM` of `hybridLanguageDetector.ts`: the behaviour of
`detectTextLanguageWithAI` is the `Except`-valued argument; its `catch`
degrades to default English at confidence 0.5. -/
def detectWithLLM (llmB : Except Unit SupportedLanguage) (s : DetState) :
    DetectionResult × DetState :=
  let s0 := { s with llmCalls := s.llmCalls + 1 }
  match llmB with
  | .ok lang => (⟨lang, 0.85, .llm⟩, s0)
  | .error _ => (⟨.en, 0.5, .fallback⟩, s0)

/-- The part of `hybridLanguageDetect` from the local-confidence
computation onwards: LLM gate, then the char-scan / FastText / default
fallback returns. -/
def hybridGate (llmB : Except Unit SupportedLanguage) (t : List Nat)
    (fastTextResult charScanResult : Option DetectionResult) (s : DetState) :
    DetectionResult × DetState :=
  let localConfidence := calculateLocalConfidence t charScanResult
  if localConfidence < (0.7 : ℚ) then detectWithLLM llmB s
  else
    match charScanResult with
    | some r => (r, s)
    | none =>
      match fastTextResult with
      | some r => (r, s)
      | none => (⟨.en, 0.5, .fallback⟩, s)

/-- The part of `hybridLanguageDetect` after the FastText stage: the
char-scan stage with its 0.75 gate, then `hybridGate`. -/
def hybridTail (llmB : Except Unit SupportedLanguage) (t : List Nat)
    (fastTextResult : Option DetectionResult) (s : DetState) :
    DetectionResult × DetState :=
  match detectWithCharScan t with
  | some r =>
    if (0.75 : ℚ) < r.confidence then (r, s)
    else hybridGate llmB t fastTextResult (some r) s
  | none => hybridGate llmB t fastTextResult none s

/-- `hybridLanguageDetect` of `hybridLanguageDetector.ts`: empty-input
guard, FastText stage with its 0.85 gate, then `hybridTail`. -/
def hybridLanguageDetect (env : FastTextEnv) (llmB : Except Unit SupportedLanguage)
    (t : List Nat) (s : DetState) : DetectionResult × DetState :=
  if jsTrim t = [] then (⟨.en, 0.5, .fallback⟩, s)
  else
    match detectWithFastText env s with
    | (some r, s1) =>
      if (0.85 : ℚ) < r.confidence then (r, s1)
      else hybridTail llmB t (some r) s1
    | (none, s1) => hybridTail llmB t none s1

/-- A FastText provider for which the package import itself rejects. -/
def ftUnavailableEnv : FastTextEnv :=
  { importResult := .error (), loadResult := .error (), identifyResult := .error () }

/-- A FastText provider that loads and classifies `tag` with score `sc`. -/
def ftConfidentEnv (tag : List Nat) (sc : ℚ) : FastTextEnv :=
  { importResult := .ok true, loadResult := .ok ()
    identifyResult := .ok ⟨some sc, some tag⟩ }

/-- The UTF-16 code units of the probe text `¿Cómo estás?` from the spec. -/
def spanishProbeText : List Nat :=
  [0xBF, 0x43, 0xF3, 0x6D, 0x6F, 0x20, 0x65, 0x73, 0x74, 0xE1, 0x73, 0x3F]

/-- A sequence of later `hybridLanguageDetect` calls, each with its own
provider behaviours and input text, threading the module state. -/
def runSeq : List (FastTextEnv × Except Unit SupportedLanguage × List Nat) → DetState → DetState
  | [], s => s
  | (env, llmB, t) :: rest, s => runSeq rest (hybridLanguageDetect env llmB t s).2

/-! ### Helper lemmas shared by the claim theorems -/

theorem japaneseChar_not_whitespace {c : Nat} (h : isJapaneseChar c = true) :
    isJsWhitespace c = false := by
  simp only [isJapaneseChar, Bool.or_eq_true, Bool.and_eq_true, decide_eq_true_eq] at h
  simp only [isJsWhitespace, List.contains_cons, List.contains_nil, Bool.or_eq_false_iff,
    Bool.and_eq_false_iff, beq_eq_false_iff_ne, ne_eq, decide_eq_false_iff_not, not_le,
    and_true]
  omega

theorem chineseChar_not_whitespace {c : Nat} (h : isChineseChar c = true) :
    isJsWhitespace c = false := by
  simp only [isChineseChar, Bool.and_eq_true, decide_eq_true_eq] at h
  simp only [isJsWhitespace, List.contains_cons, List.contains_nil, Bool.or_eq_false_iff,
    Bool.and_eq_false_iff, beq_eq_false_iff_ne, ne_eq, decide_eq_false_iff_not, not_le,
    and_true]
  omega

theorem jsTrim_ne_nil {t : List Nat} {c : Nat} (hc : c ∈ t)
    (hw : isJsWhitespace c = false) : jsTrim t ≠ [] := by
  intro h
  unfold jsTrim at h
  rw [List.reverse_eq_nil_iff, List.dropWhile_eq_nil_iff] at h
  rw [← List.takeWhile_append_dropWhile (p := isJsWhitespace) (l := t),
    List.mem_append] at hc
  rcases hc with hc | hc
  · exact absurd (List.mem_takeWhile_imp hc) (by simp [hw])
  · have := h c (by simpa using hc)
    simp [hw] at this

theorem jsTrim_ne_nil_of_countP {t : List Nat} {p : Nat → Bool}
    (hp : ∀ c, p c = true → isJsWhitespace c = false)
    (h : 0 < t.countP p) : jsTrim t ≠ [] := by
  rw [List.countP_pos_iff] at h
  obtain ⟨c, hc, hpc⟩ := h
  exact jsTrim_ne_nil hc (hp c hpc)

theorem ratio_nonneg (a b : Nat) : 0 ≤ (a : ℚ) / (b : ℚ) := by positivity

theorem charScanFilterConfidence_le_one (l : SupportedLanguage) (stats : CharStats) :
    charScanFilterConfidence l stats ≤ 1 := by
  unfold charScanFilterConfidence
  split_ifs <;> first
    | exact le_trans (min_le_left _ _) (by norm_num)
    | norm_num

/-- Every result of the char-scan stage has confidence in (0.75, 1]:
rules 1 and 2 return at least 0.8, and rule 3 returns only above its own
0.75 guard. -/
theorem detectWithCharScan_conf {t : List Nat} {r : DetectionResult}
    (h : detectWithCharScan t = some r) :
    0.75 < r.confidence ∧ r.confidence ≤ 1 := by
  have hjr := ratio_nonneg (getCharStats t).japanese (getCharStats t).total
  have hcr := ratio_nonneg (getCharStats t).chinese (getCharStats t).total
  simp only [detectWithCharScan] at h
  split_ifs at h with h1 h2
  · injection h with h
    subst h
    refine ⟨lt_min (by norm_num) ?_, le_trans (min_le_left _ _) (by norm_num)⟩
    have : (0:ℚ) ≤ (((getCharStats t).japanese : ℚ) / ((getCharStats t).total : ℚ)) * 0.18 :=
      mul_nonneg hjr (by norm_num)
    linarith
  · injection h with h
    subst h
    refine ⟨lt_min (by norm_num) ?_, le_trans (min_le_left _ _) (by norm_num)⟩
    have : (0:ℚ) ≤ (((getCharStats t).chinese : ℚ) / ((getCharStats t).total : ℚ)) * 0.18 :=
      mul_nonneg hcr (by norm_num)
    linarith
  · cases hlf : languageFilter t with
    | none => rw [hlf] at h; exact absurd h (by simp)
    | some filterResult =>
      rw [hlf] at h
      simp only at h
      split_ifs at h with h3
      injection h with h
      subst h
      exact ⟨h3, charScanFilterConfidence_le_one _ _⟩

/-- Any kana character makes the char-scan stage return Japanese. -/
theorem detectWithCharScan_of_kana {t : List Nat}
    (h : 0 < (getCharStats t).japanese) :
    ∃ q : ℚ, detectWithCharScan t = some ⟨.ja, q, .charscan⟩ := by
  simp only [detectWithCharScan]
  rw [if_pos ⟨h, Or.inr h⟩]
  exact ⟨_, rfl⟩

/-- A CJK ideograph with no kana makes the char-scan stage return Chinese. -/
theorem detectWithCharScan_of_cjk {t : List Nat}
    (hj : (getCharStats t).japanese = 0) (hc : 0 < (getCharStats t).chinese) :
    ∃ q : ℚ, detectWithCharScan t = some ⟨.zh, q, .charscan⟩ := by
  simp only [detectWithCharScan]
  rw [if_neg (by simp [hj]), if_pos ⟨hc, hj, Or.inr hc⟩]
  exact ⟨_, rfl⟩

/-- A non-null char-scan result implies the input survives trimming
(needed to pass the empty-input guard of the arbitration engine). -/
theorem jsTrim_ne_nil_of_charScan {t : List Nat} {r : DetectionResult}
    (h : detectWithCharScan t = some r) : jsTrim t ≠ [] := by
  by_cases hj : 0 < (getCharStats t).japanese
  · exact jsTrim_ne_nil_of_countP (fun c => japaneseChar_not_whitespace) hj
  · by_cases hc : 0 < (getCharStats t).chinese
    · exact jsTrim_ne_nil_of_countP (fun c => chineseChar_not_whitespace) hc
    · simp only [detectWithCharScan] at h
      rw [if_neg (fun hx => hj hx.1), if_neg (fun hx => hc hx.1)] at h
      cases hlf : languageFilter t with
      | none => rw [hlf] at h; exact absurd h (by simp)
      | some filterResult =>
        intro htrim
        unfold languageFilter at hlf
        rw [if_pos htrim] at hlf
        exact absurd hlf (by simp)

/-- When the FastText stage yields `null`, the engine proceeds to the
char-scan stage with the stage's post-state. -/
theorem hybridLanguageDetect_ftNone (env : FastTextEnv) (llmB : Except Unit SupportedLanguage)
    (t : List Nat) (s : DetState)
    (htrim : jsTrim t ≠ []) (hft : (detectWithFastText env s).1 = none) :
    hybridLanguageDetect env llmB t s = hybridTail llmB t none (detectWithFastText env s).2 := by
  unfold hybridLanguageDetect
  rw [if_neg htrim]
  rcases hd : detectWithFastText env s with ⟨o, s1⟩
  rw [hd] at hft
  cases o with
  | none => rfl
  | some r => exact absurd hft (by simp)

/-- A char-scan result above the 0.75 bar short-circuits the tail. -/
theorem hybridTail_charscan (llmB : Except Unit SupportedLanguage) (t : List Nat)
    (ftRes : Option DetectionResult) (s : DetState) {r : DetectionResult}
    (hcs : detectWithCharScan t = some r) (hconf : (0.75 : ℚ) < r.confidence) :
    hybridTail llmB t ftRes s = (r, s) := by
  unfold hybridTail
  rw [hcs]
  simp only
  rw [if_pos hconf]

/-- Characterisation of a non-null FastText stage result: it passed the
0.85 bar, carries the model's score, and its language is the
`LANGUAGE_CODE_MAP` image of the model's lowered tag. -/
theorem detectWithFastText_some_spec {env : FastTextEnv} {s : DetState} {r : DetectionResult}
    (h : (detectWithFastText env s).1 = some r) :
    (0.85 : ℚ) < r.confidence ∧ r.method = .fasttext ∧
    ∃ out, env.identifyResult = .ok out ∧ r.confidence = (out.score).getD 0 ∧
      langCodeMap (alpha2Key out) = some r.language := by
  simp only [detectWithFastText] at h
  rcases hchk : checkFastTextAvailability env { s with ftCalls := s.ftCalls + 1 } with ⟨avail, s1⟩
  rw [hchk] at h
  cases avail with
  | false => exact absurd h (by simp)
  | true =>
    simp only [Bool.not_true, Bool.false_eq_true, if_false] at h
    rcases hini : initFastText env s1 with ⟨m, s2⟩
    rw [hini] at h
    cases m with
    | none => exact absurd h (by simp)
    | some u =>
      cases hid : env.identifyResult with
      | error e => rw [hid] at h; exact absurd h (by simp)
      | ok out =>
        rw [hid] at h
        simp only at h
        split_ifs at h with hconf
        cases hmap : langCodeMap (alpha2Key out) with
        | none => rw [hmap] at h; exact absurd h (by simp)
        | some langCode =>
          rw [hmap] at h
          simp only [Option.some.injEq] at h
          subst h
          exact ⟨hconf, rfl, out, rfl, rfl, hmap⟩

/-- Once the adapter is marked unavailable, the FastText stage returns
`null` immediately and only the ghost call counter changes. -/
theorem detectWithFastText_unavailable (env : FastTextEnv) (s : DetState)
    (h : s.fastTextAvailable = some false) :
    detectWithFastText env s = (none, { s with ftCalls := s.ftCalls + 1 }) := by
  simp [detectWithFastText, checkFastTextAvailability, h]

/-- The state after the gate stage: unchanged, or only the ghost LLM
counter bumped. -/
theorem hybridGate_state (llmB : Except Unit SupportedLanguage) (t : List Nat)
    (ftRes csRes : Option DetectionResult) (s : DetState) :
    (hybridGate llmB t ftRes csRes s).2 = s ∨
    (hybridGate llmB t ftRes csRes s).2 = { s with llmCalls := s.llmCalls + 1 } := by
  unfold hybridGate detectWithLLM
  dsimp only
  split_ifs
  · cases llmB <;> simp
  · cases csRes <;> cases ftRes <;> simp

/-- The state after the tail: unchanged, or only the ghost LLM counter
bumped. -/
theorem hybridTail_state (llmB : Except Unit SupportedLanguage) (t : List Nat)
    (ftRes : Option DetectionResult) (s : DetState) :
    (hybridTail llmB t ftRes s).2 = s ∨
    (hybridTail llmB t ftRes s).2 = { s with llmCalls := s.llmCalls + 1 } := by
  unfold hybridTail
  cases detectWithCharScan t with
  | none => exact hybridGate_state llmB t ftRes none s
  | some r =>
    simp only
    split_ifs
    · exact Or.inl rfl
    · exact hybridGate_state llmB t ftRes (some r) s

/-- First call on a fresh adapter with a working import but a failing
model load: one load attempt happens, the adapter is marked permanently
unavailable, and the stage yields `null`. -/
theorem detectWithFastText_loadFail (env : FastTextEnv) (s : DetState)
    (h1 : env.importResult = .ok true) (h2 : env.loadResult = .error ())
    (h3 : s.fastTextAvailable = none) (h4 : s.fastTextModel = false) :
    detectWithFastText env s =
      (none, { s with ftCalls := s.ftCalls + 1, loadAttempts := s.loadAttempts + 1,
                      fastTextAvailable := some false }) := by
  obtain ⟨av, mo, la, lc, fc⟩ := s
  simp only at h3 h4
  subst h3; subst h4
  simp [detectWithFastText, checkFastTextAvailability, initFastText, h1, h2]

/-- A call on a state whose adapter is marked unavailable preserves the
availability flag, the model flag and the load-attempt count. -/
theorem hybridLanguageDetect_absorbing (env : FastTextEnv)
    (llmB : Except Unit SupportedLanguage) (t : List Nat) (s : DetState)
    (h : s.fastTextAvailable = some false) :
    (hybridLanguageDetect env llmB t s).2.fastTextAvailable = some false ∧
    (hybridLanguageDetect env llmB t s).2.loadAttempts = s.loadAttempts ∧
    (hybridLanguageDetect env llmB t s).2.fastTextModel = s.fastTextModel := by
  unfold hybridLanguageDetect
  split_ifs with htrim
  · exact ⟨h, rfl, rfl⟩
  · rw [detectWithFastText_unavailable env s h]
    simp only
    rcases hybridTail_state llmB t none { s with ftCalls := s.ftCalls + 1 } with hst | hst <;>
      rw [hst] <;> exact ⟨h, rfl, rfl⟩

/-- Permanent unavailability is absorbing across any later call sequence:
the flag stays `false` and no further load attempt happens. -/
theorem runSeq_absorbing (calls : List (FastTextEnv × Except Unit SupportedLanguage × List Nat))
    (s : DetState) (h : s.fastTextAvailable = some false) :
    (runSeq calls s).fastTextAvailable = some false ∧
    (runSeq calls s).loadAttempts = s.loadAttempts := by
  induction calls generalizing s with
  | nil => exact ⟨h, rfl⟩
  | cons c rest ih =>
    obtain ⟨env, llmB, t⟩ := c
    simp only [runSeq]
    obtain ⟨ha, hl, _⟩ := hybridLanguageDetect_absorbing env llmB t s h
    obtain ⟨ha2, hl2⟩ := ih _ ha
    exact ⟨ha2, by rw [hl2, hl]⟩

/-- The availability probe never touches the ghost LLM counter. -/
theorem checkFastTextAvailability_llmCalls (env : FastTextEnv) (s : DetState) :
    ((checkFastTextAvailability env s).2).llmCalls = s.llmCalls := by
  unfold checkFastTextAvailability
  repeat' split
  all_goals rfl

/-- The model initialisation never touches the ghost LLM counter. -/
theorem initFastText_llmCalls (env : FastTextEnv) (s : DetState) :
    ((initFastText env s).2).llmCalls = s.llmCalls := by
  obtain ⟨avail, s1, hchk⟩ : ∃ a b, checkFastTextAvailability env s = (a, b) := ⟨_, _, rfl⟩
  have h1 := checkFastTextAvailability_llmCalls env s
  rw [hchk] at h1
  unfold initFastText
  rw [hchk]
  dsimp only
  cases avail with
  | false => simpa using h1
  | true =>
    rcases henv : env.loadResult with e | u <;>
      by_cases hm : s1.fastTextModel <;>
        · replace h1 : s1.llmCalls = s.llmCalls := h1
          simp [henv, hm, h1]

/-- The FastText stage never touches the ghost LLM counter. -/
theorem detectWithFastText_llmCalls (env : FastTextEnv) (s : DetState) :
    (detectWithFastText env s).2.llmCalls = s.llmCalls := by
  obtain ⟨avail, s1, hchk⟩ :
      ∃ a b, checkFastTextAvailability env { s with ftCalls := s.ftCalls + 1 } = (a, b) :=
    ⟨_, _, rfl⟩
  have h1 : s1.llmCalls = s.llmCalls := by
    have h := checkFastTextAvailability_llmCalls env { s with ftCalls := s.ftCalls + 1 }
    rw [hchk] at h
    exact h
  unfold detectWithFastText
  dsimp only
  rw [hchk]
  cases avail with
  | false => simp [h1]
  | true =>
    obtain ⟨m, s2, hini⟩ : ∃ a b, initFastText env s1 = (a, b) := ⟨_, _, rfl⟩
    have h2 : s2.llmCalls = s.llmCalls := by
      have h := initFastText_llmCalls env s1
      rw [hini] at h
      exact h.trans h1
    cases m with
    | none => simp [hini, h2]
    | some u =>
      cases hid : env.identifyResult with
      | error e => simp [hini, hid, h2]
      | ok out =>
        simp only [hini, hid]
        rcases hmap : langCodeMap (alpha2Key out) with _ | l <;> split_ifs <;> simp [hmap, h2, h1]

/-- The result value of the LLM stage does not depend on the state. -/
theorem detectWithLLM_fst (llmB : Except Unit SupportedLanguage) (s s2 : DetState) :
    (detectWithLLM llmB s).1 = (detectWithLLM llmB s2).1 := by
  unfold detectWithLLM
  cases llmB <;> rfl

/-- The LLM stage bumps the ghost LLM counter by exactly one. -/
theorem detectWithLLM_llmCalls (llmB : Except Unit SupportedLanguage) (s : DetState) :
    (detectWithLLM llmB s).2.llmCalls = s.llmCalls + 1 := by
  unfold detectWithLLM
  cases llmB <;> rfl

/-- Below the 0.7 local-confidence bar the gate calls the LLM stage. -/
theorem hybridGate_llm (llmB : Except Unit SupportedLanguage) (t : List Nat)
    (ftRes csRes : Option DetectionResult) (s : DetState)
    (h : calculateLocalConfidence t csRes < (0.7 : ℚ)) :
    hybridGate llmB t ftRes csRes s = detectWithLLM llmB s := by
  unfold hybridGate
  dsimp only
  rw [if_pos h]

/-- An abstaining char-scan stage passes control to the gate. -/
theorem hybridTail_csNone (llmB : Except Unit SupportedLanguage) (t : List Nat)
    (ftRes : Option DetectionResult) (s : DetState)
    (h : detectWithCharScan t = none) :
    hybridTail llmB t ftRes s = hybridGate llmB t ftRes none s := by
  unfold hybridTail
  rw [h]

/-- Every result of the tail comes from one of its stages: the default,
the char scan, the FastText result handed in, or the LLM stage. -/
theorem hybridTail_fst_cases (llmB : Except Unit SupportedLanguage) (t : List Nat)
    (ftRes : Option DetectionResult) (s : DetState) {r : DetectionResult} {s2 : DetState}
    (h : hybridTail llmB t ftRes s = (r, s2)) :
    r = ⟨.en, 0.5, .fallback⟩ ∨ detectWithCharScan t = some r ∨ ftRes = some r ∨
    r = (detectWithLLM llmB s).1 := by
  unfold hybridTail hybridGate at h
  cases hcs : detectWithCharScan t with
  | some cr =>
    rw [hcs] at h
    simp only at h
    split_ifs at h with h1 h2
    · injection h with hr _
      subst hr
      exact Or.inr (Or.inl rfl)
    · right; right; right; rw [h]
    · injection h with hr _
      subst hr
      exact Or.inr (Or.inl rfl)
  | none =>
    rw [hcs] at h
    simp only at h
    split_ifs at h with h1
    · right; right; right; rw [h]
    · cases hft : ftRes with
      | some fr =>
        rw [hft] at h
        injection h with hr _
        subst hr
        exact Or.inr (Or.inr (Or.inl rfl))
      | none =>
        rw [hft] at h
        injection h with hr _
        subst hr
        exact Or.inl rfl

/-- After the empty-input guard, a `hybridLanguageDetect` outcome either
is a confident FastText result or comes from the tail run on the FastText
stage's post-state. -/
theorem hybridLanguageDetect_eq_cases (env : FastTextEnv)
    (llmB : Except Unit SupportedLanguage) (t : List Nat) (s : DetState)
    {r : DetectionResult} {s2 : DetState}
    (hh : hybridLanguageDetect env llmB t s = (r, s2)) (htrim : jsTrim t ≠ []) :
    ((detectWithFastText env s).1 = some r ∧ (0.85 : ℚ) < r.confidence) ∨
    hybridTail llmB t (detectWithFastText env s).1 (detectWithFastText env s).2 = (r, s2) := by
  unfold hybridLanguageDetect at hh
  rw [if_neg htrim] at hh
  rcases hd : detectWithFastText env s with ⟨o, s1⟩
  rw [hd] at hh
  cases o with
  | none => exact Or.inr hh
  | some r0 =>
    simp only at hh
    split_ifs at hh with h1
    · injection hh with hr _
      subst hr
      exact Or.inl ⟨rfl, h1⟩
    · exact Or.inr hh

/-- Claim C1, counterexample: the kana input "あ" together with a loaded
statistical model that confidently (score 0.9) reports English makes
`hybridLanguageDetect` return English, not Japanese — the FastText stage
runs before the kana rule and short-circuits above 0.85, so the claim's
"for every behaviour of the statistical provider" fails. -/
theorem claim1_counterexample :
    0 < (getCharStats [0x3042]).japanese ∧
    ((hybridLanguageDetect (ftConfidentEnv [0x65, 0x6E] 0.9) (Except.ok SupportedLanguage.ja)
        [0x3042] initialDetState).1).language ≠ SupportedLanguage.ja := by
  refine ⟨by decide, ?_⟩
  norm_num +decide [hybridLanguageDetect, detectWithFastText, checkFastTextAvailability,
    initFastText, ftConfidentEnv, initialDetState, langCodeMap, alpha2Key, asciiToLower,
    jsTrim, isJsWhitespace]

/-- Claim C1 (amended): for every input containing at least one kana
character, `hybridLanguageDetectSync` always returns Japanese, and
`hybridLanguageDetect` returns Japanese for every behaviour of the remote
provider and every state in which the statistical stage yields no result
(in particular whenever that provider is unavailable, throws, or reports
at most 0.85). -/
theorem claim1_amended (t : List Nat) (h : 0 < (getCharStats t).japanese) :
    (hybridLanguageDetectSync t).language = SupportedLanguage.ja ∧
    ∀ (env : FastTextEnv) (llmB : Except Unit SupportedLanguage) (s : DetState),
      (detectWithFastText env s).1 = none →
      ((hybridLanguageDetect env llmB t s).1).language = SupportedLanguage.ja := by
  obtain ⟨q, hcs⟩ := detectWithCharScan_of_kana h
  have hconf := (detectWithCharScan_conf hcs).1
  have htrim : jsTrim t ≠ [] :=
    jsTrim_ne_nil_of_countP (fun c => japaneseChar_not_whitespace) h
  constructor
  · unfold hybridLanguageDetectSync
    rw [hcs]
  · intro env llmB s hft
    rw [hybridLanguageDetect_ftNone env llmB t s htrim hft,
      hybridTail_charscan llmB t none _ hcs hconf]

/-- Claim C1 witness: the amended statement evaluated on the katakana
input "ア" with an unavailable statistical provider. -/
theorem claim1_amended_witness :
    (hybridLanguageDetectSync [0x30A2]).language = SupportedLanguage.ja ∧
    ((hybridLanguageDetect ftUnavailableEnv (Except.error ()) [0x30A2]
        initialDetState).1).language = SupportedLanguage.ja :=
  ⟨(claim1_amended [0x30A2] (by decide)).1,
   (claim1_amended [0x30A2] (by decide)).2 ftUnavailableEnv (Except.error ())
     initialDetState (by decide)⟩

/-- Claim C4, counterexample: the CJK input "中" (no kana) with a loaded
statistical model that confidently reports English is classified as
English by `hybridLanguageDetect`, not as Chinese. -/
theorem claim4_counterexample :
    0 < (getCharStats [0x4E2D]).chinese ∧ (getCharStats [0x4E2D]).japanese = 0 ∧
    ((hybridLanguageDetect (ftConfidentEnv [0x65, 0x6E] 0.9) (Except.ok SupportedLanguage.zh)
        [0x4E2D] initialDetState).1).language ≠ SupportedLanguage.zh := by
  refine ⟨by decide, by decide, ?_⟩
  norm_num +decide [hybridLanguageDetect, detectWithFastText, checkFastTextAvailability,
    initFastText, ftConfidentEnv, initialDetState, langCodeMap, alpha2Key, asciiToLower,
    jsTrim, isJsWhitespace]

/-- Claim C4 (amended): for every input containing a CJK ideograph and no
kana, `hybridLanguageDetectSync` always returns Chinese, and
`hybridLanguageDetect` returns Chinese for every remote-provider
behaviour and every state in which the statistical stage yields no
result. -/
theorem claim4_amended (t : List Nat) (hj : (getCharStats t).japanese = 0)
    (hc : 0 < (getCharStats t).chinese) :
    (hybridLanguageDetectSync t).language = SupportedLanguage.zh ∧
    ∀ (env : FastTextEnv) (llmB : Except Unit SupportedLanguage) (s : DetState),
      (detectWithFastText env s).1 = none →
      ((hybridLanguageDetect env llmB t s).1).language = SupportedLanguage.zh := by
  obtain ⟨q, hcs⟩ := detectWithCharScan_of_cjk hj hc
  have hconf := (detectWithCharScan_conf hcs).1
  have htrim : jsTrim t ≠ [] :=
    jsTrim_ne_nil_of_countP (fun c => chineseChar_not_whitespace) hc
  constructor
  · unfold hybridLanguageDetectSync
    rw [hcs]
  · intro env llmB s hft
    rw [hybridLanguageDetect_ftNone env llmB t s htrim hft,
      hybridTail_charscan llmB t none _ hcs hconf]

/-- Claim C4 witness: the amended statement evaluated on "中" with an
unavailable statistical provider. -/
theorem claim4_amended_witness :
    (hybridLanguageDetectSync [0x4E2D]).language = SupportedLanguage.zh ∧
    ((hybridLanguageDetect ftUnavailableEnv (Except.error ()) [0x4E2D]
        initialDetState).1).language = SupportedLanguage.zh :=
  ⟨(claim4_amended [0x4E2D] (by decide) (by decide)).1,
   (claim4_amended [0x4E2D] (by decide) (by decide)).2 ftUnavailableEnv (Except.error ())
     initialDetState (by decide)⟩

/-- Claim C5, counterexample: on `¿Cómo estás?` a loaded statistical
model that confidently (score 0.9) reports German wins the first stage,
so the detection result is not Spanish — the claim's "for every behaviour
of those providers" fails. -/
theorem claim5_counterexample :
    ((hybridLanguageDetect (ftConfidentEnv [0x64, 0x65] 0.9) (Except.ok SupportedLanguage.es)
        spanishProbeText initialDetState).1).language ≠ SupportedLanguage.es := by
  norm_num +decide [hybridLanguageDetect, detectWithFastText, checkFastTextAvailability,
    initFastText, ftConfidentEnv, initialDetState, langCodeMap, alpha2Key, asciiToLower,
    spanishProbeText, jsTrim, isJsWhitespace]

/-- Claim C5 (amended): on `¿Cómo estás?` the char-scan stage yields
Spanish with confidence 23/30 ≈ 0.767 ≥ 0.75; `hybridLanguageDetectSync`
always returns it, and `hybridLanguageDetect` returns it for every
remote-provider behaviour and every state in which the statistical stage
yields no result. -/
theorem claim5_amended :
    hybridLanguageDetectSync spanishProbeText
      = ⟨SupportedLanguage.es, 23/30, DetMethod.charscan⟩ ∧
    (0.75 : ℚ) ≤ 23/30 ∧
    ∀ (env : FastTextEnv) (llmB : Except Unit SupportedLanguage) (s : DetState),
      (detectWithFastText env s).1 = none →
      (hybridLanguageDetect env llmB spanishProbeText s).1
        = ⟨SupportedLanguage.es, 23/30, DetMethod.charscan⟩ := by
  have hcs : detectWithCharScan spanishProbeText
      = some ⟨SupportedLanguage.es, 23/30, DetMethod.charscan⟩ := by
    norm_num +decide [detectWithCharScan, getCharStats, scanCharacters, languageFilter,
      quickLanguageDetection, quickRule1, quickRule2, quickRule3, quickRule4,
      quickRule5, quickRule6, quickRule7, charScanFilterConfidence, jsTrim,
      isChineseChar, isJapaneseChar, isGermanChar, isFrenchChar, isSpanishChar,
      isSpanishAccentedChar, isAccentedChar, isBasicEnglishChar, isJsWhitespace,
      spanishProbeText, min_def]
  have hconf : (0.75 : ℚ) < 23/30 := by norm_num
  have htrim : jsTrim spanishProbeText ≠ [] := by decide
  refine ⟨?_, by norm_num, ?_⟩
  · unfold hybridLanguageDetectSync
    rw [hcs]
  · intro env llmB s hft
    rw [hybridLanguageDetect_ftNone env llmB spanishProbeText s htrim hft,
      hybridTail_charscan llmB spanishProbeText none _ hcs hconf]

/-- Claim C5 witness: the amended statement with an unavailable
statistical provider on the fresh state. -/
theorem claim5_amended_witness :
    (hybridLanguageDetect ftUnavailableEnv (Except.error ()) spanishProbeText
        initialDetState).1 = ⟨SupportedLanguage.es, 23/30, DetMethod.charscan⟩ :=
  claim5_amended.2.2 ftUnavailableEnv (Except.error ()) initialDetState (by decide)

/-- Claim C8: for every whitespace-only (or empty) input, every provider
behaviour and every state, `hybridLanguageDetect` returns the default
result {en, 0.5, fallback} immediately, leaving the state untouched — in
particular no stage is invoked (none of the ghost counters moves). -/
theorem claim8_empty_input (env : FastTextEnv) (llmB : Except Unit SupportedLanguage)
    (t : List Nat) (s : DetState) (h : jsTrim t = []) :
    hybridLanguageDetect env llmB t s
      = (⟨SupportedLanguage.en, 0.5, DetMethod.fallback⟩, s) := by
  unfold hybridLanguageDetect
  rw [if_pos h]

/-- Claim C8 witness: the guard on the two-blank input `" \t"`. -/
theorem claim8_empty_input_witness :
    hybridLanguageDetect ftUnavailableEnv (Except.error ()) [0x20, 0x9] initialDetState
      = (⟨SupportedLanguage.en, 0.5, DetMethod.fallback⟩, initialDetState) :=
  claim8_empty_input ftUnavailableEnv (Except.error ()) [0x20, 0x9] initialDetState (by decide)

/-- Claim C10: every non-null char-scan result has confidence strictly
above 0.75; consequently, for every provider behaviour and state, the
arbitration engine either returns exactly that result or a confident
(> 0.85) FastText result — the post-gate `return charScanResult` branch
never fires with a non-null char-scan result. -/
theorem claim10_charscan_above_gate (t : List Nat) {r : DetectionResult}
    (hcs : detectWithCharScan t = some r) :
    (0.75 : ℚ) < r.confidence ∧
    ∀ (env : FastTextEnv) (llmB : Except Unit SupportedLanguage) (s : DetState),
      (hybridLanguageDetect env llmB t s).1 = r ∨
      ((detectWithFastText env s).1 = some (hybridLanguageDetect env llmB t s).1 ∧
        (0.85 : ℚ) < ((hybridLanguageDetect env llmB t s).1).confidence) := by
  have hb := detectWithCharScan_conf hcs
  refine ⟨hb.1, ?_⟩
  intro env llmB s
  have htrim := jsTrim_ne_nil_of_charScan hcs
  rcases hh : hybridLanguageDetect env llmB t s with ⟨r2, s2⟩
  dsimp only
  rcases hybridLanguageDetect_eq_cases env llmB t s hh htrim with ⟨hft, hcf⟩ | htail
  · exact Or.inr ⟨hft, hcf⟩
  · rw [hybridTail_charscan llmB t (detectWithFastText env s).1
      (detectWithFastText env s).2 hcs hb.1] at htail
    injection htail with h1 _
    exact Or.inl h1.symm

/-- Claim C10 witness: evaluated on the plain-ASCII input "in", whose
char-scan result is English at confidence 0.8 > 0.75, with an
unavailable statistical provider. -/
theorem claim10_charscan_above_gate_witness :
    (0.75 : ℚ) < (0.8 : ℚ) ∧
    ((hybridLanguageDetect ftUnavailableEnv (Except.error ()) [0x69, 0x6E] initialDetState).1
        = ⟨SupportedLanguage.en, 0.8, DetMethod.charscan⟩ ∨
      ((detectWithFastText ftUnavailableEnv initialDetState).1
          = some (hybridLanguageDetect ftUnavailableEnv (Except.error ()) [0x69, 0x6E]
              initialDetState).1 ∧
        (0.85 : ℚ) < ((hybridLanguageDetect ftUnavailableEnv (Except.error ()) [0x69, 0x6E]
            initialDetState).1).confidence)) := by
  have h := claim10_charscan_above_gate [0x69, 0x6E]
    (r := ⟨SupportedLanguage.en, 0.8, DetMethod.charscan⟩)
    (by norm_num +decide [detectWithCharScan, getCharStats, scanCharacters, languageFilter,
      quickLanguageDetection, quickRule1, quickRule2, quickRule3, quickRule4,
      quickRule5, quickRule6, quickRule7, charScanFilterConfidence, jsTrim,
      isChineseChar, isJapaneseChar, isGermanChar, isFrenchChar, isSpanishChar,
      isSpanishAccentedChar, isAccentedChar, isBasicEnglishChar, isJsWhitespace, min_def])
  exact ⟨h.1, h.2 ftUnavailableEnv (Except.error ()) initialDetState⟩

/-- Claim C7: the FastText stage returns a non-null result only when the
model's score exceeds 0.85 and the lowered tag maps into the supported
set (the result then carries exactly that score and mapped language); a
reported score at most 0.85, an unmapped tag, or an adapter already
marked unavailable each force a null result. -/
theorem claim7_fasttext_gate :
    (∀ (env : FastTextEnv) (s : DetState) (r : DetectionResult),
        (detectWithFastText env s).1 = some r →
        (0.85 : ℚ) < r.confidence ∧ r.method = DetMethod.fasttext ∧
        ∃ out, env.identifyResult = Except.ok out ∧ r.confidence = (out.score).getD 0 ∧
          langCodeMap (alpha2Key out) = some r.language) ∧
    (∀ (env : FastTextEnv) (s : DetState) (out : IdentifyOutput),
        env.identifyResult = Except.ok out → (out.score).getD 0 ≤ 0.85 →
        (detectWithFastText env s).1 = none) ∧
    (∀ (env : FastTextEnv) (s : DetState) (out : IdentifyOutput),
        env.identifyResult = Except.ok out → langCodeMap (alpha2Key out) = none →
        (detectWithFastText env s).1 = none) ∧
    (∀ (env : FastTextEnv) (s : DetState), s.fastTextAvailable = some false →
        (detectWithFastText env s).1 = none) := by
  refine ⟨fun env s r h => detectWithFastText_some_spec h, ?_, ?_, ?_⟩
  · intro env s out hid hle
    cases h : (detectWithFastText env s).1 with
    | none => rfl
    | some r =>
      obtain ⟨hgt, _, out2, hid2, hconf, _⟩ := detectWithFastText_some_spec h
      rw [hid] at hid2
      injection hid2 with he
      subst he
      rw [hconf] at hgt
      linarith
  · intro env s out hid hmap
    cases h : (detectWithFastText env s).1 with
    | none => rfl
    | some r =>
      obtain ⟨_, _, out2, hid2, _, hmap2⟩ := detectWithFastText_some_spec h
      rw [hid] at hid2
      injection hid2 with he
      subst he
      rw [hmap] at hmap2
      exact absurd hmap2 (by simp)
  · intro env s h
    rw [detectWithFastText_unavailable env s h]

/-- Claim C7 witness: a provider reporting score 0.5 (below the bar)
yields a null stage result on the fresh state. -/
theorem claim7_fasttext_gate_witness :
    (detectWithFastText
        ⟨Except.ok true, Except.ok (), Except.ok ⟨some 0.5, some [0x65, 0x6E]⟩⟩
        initialDetState).1 = none :=
  claim7_fasttext_gate.2.1 _ initialDetState ⟨some 0.5, some [0x65, 0x6E]⟩ rfl
    (by norm_num [Option.getD])

/-- Every result of the arbitration engine is the default, the char-scan
result, the FastText result, or the LLM-stage result for the call's
remote behaviour. -/
theorem hybridLanguageDetect_result_cases (env : FastTextEnv)
    (llmB : Except Unit SupportedLanguage) (t : List Nat) (s : DetState) :
    (hybridLanguageDetect env llmB t s).1 = ⟨SupportedLanguage.en, 0.5, DetMethod.fallback⟩ ∨
    detectWithCharScan t = some (hybridLanguageDetect env llmB t s).1 ∨
    (detectWithFastText env s).1 = some (hybridLanguageDetect env llmB t s).1 ∨
    (hybridLanguageDetect env llmB t s).1 = (detectWithLLM llmB s).1 := by
  rcases hh : hybridLanguageDetect env llmB t s with ⟨r, s2⟩
  dsimp only
  by_cases htrim : jsTrim t = []
  · left
    unfold hybridLanguageDetect at hh
    rw [if_pos htrim] at hh
    injection hh with h1 _
    exact h1.symm
  · rcases hybridLanguageDetect_eq_cases env llmB t s hh htrim with ⟨hft, _⟩ | htail
    · exact Or.inr (Or.inr (Or.inl hft))
    · rcases hybridTail_fst_cases llmB t (detectWithFastText env s).1
        (detectWithFastText env s).2 htail with h1 | h1 | h1 | h1
      · exact Or.inl h1
      · exact Or.inr (Or.inl h1)
      · exact Or.inr (Or.inr (Or.inl h1))
      · exact Or.inr (Or.inr (Or.inr
          (h1.trans (detectWithLLM_fst llmB (detectWithFastText env s).2 s))))

/-- Claim C3: for every input, state, and provider behaviour — including
providers that throw (`Except.error`) or return malformed data — the
arbitration engine yields a `DetectionResult` drawn from its four stages
(it cannot propagate an exception, which in this model would have to
surface as an extra outcome); moreover, when the statistical stage yields
nothing and the remote provider throws, the result is the char-scan
result or the low-confidence default {en, 0.5, fallback}. -/
theorem claim3_fail_open (env : FastTextEnv) (llmB : Except Unit SupportedLanguage)
    (t : List Nat) (s : DetState) :
    ((hybridLanguageDetect env llmB t s).1 = ⟨SupportedLanguage.en, 0.5, DetMethod.fallback⟩ ∨
      detectWithCharScan t = some (hybridLanguageDetect env llmB t s).1 ∨
      (detectWithFastText env s).1 = some (hybridLanguageDetect env llmB t s).1 ∨
      (hybridLanguageDetect env llmB t s).1 = (detectWithLLM llmB s).1) ∧
    ((detectWithFastText env s).1 = none → llmB = Except.error () →
      detectWithCharScan t = some (hybridLanguageDetect env llmB t s).1 ∨
      (hybridLanguageDetect env llmB t s).1
        = ⟨SupportedLanguage.en, 0.5, DetMethod.fallback⟩) := by
  refine ⟨hybridLanguageDetect_result_cases env llmB t s, ?_⟩
  intro hft herr
  rcases hybridLanguageDetect_result_cases env llmB t s with h | h | h | h
  · exact Or.inr h
  · exact Or.inl h
  · rw [hft] at h
    exact absurd h (by simp)
  · subst herr
    exact Or.inr h

/-- Claim C3 witness: all providers failing on the Cyrillic word "да"
(char scan abstains) still yields the default result. -/
theorem claim3_fail_open_witness :
    detectWithCharScan [0x434, 0x430]
        = some (hybridLanguageDetect ftUnavailableEnv (Except.error ()) [0x434, 0x430]
            initialDetState).1 ∨
    (hybridLanguageDetect ftUnavailableEnv (Except.error ()) [0x434, 0x430]
        initialDetState).1 = ⟨SupportedLanguage.en, 0.5, DetMethod.fallback⟩ :=
  (claim3_fail_open ftUnavailableEnv (Except.error ()) [0x434, 0x430] initialDetState).2
    (by decide) rfl

/-- Claim C9, counterexample: a statistical provider reporting score 2
(the interface only promises a number) flows through unclamped — the
returned confidence exceeds 1, so "confidence is always in [0,1] for
every provider behaviour" fails. -/
theorem claim9_counterexample :
    1 < ((hybridLanguageDetect (ftConfidentEnv [0x65, 0x6E] 2) (Except.error ())
        [0x68, 0x69] initialDetState).1).confidence := by
  norm_num +decide [hybridLanguageDetect, detectWithFastText, checkFastTextAvailability,
    initFastText, ftConfidentEnv, initialDetState, langCodeMap, alpha2Key, asciiToLower,
    jsTrim, isJsWhitespace]

/-- Claim C9 (amended): for every input, state and provider behaviour,
the result language lies in the supported six-language set and the
confidence is non-negative; the confidence of `hybridLanguageDetect` is
moreover at most 1 provided the statistical provider's reported score
(when it reports one) is at most 1, and `hybridLanguageDetectSync`
satisfies the [0,1] bounds unconditionally. -/
theorem claim9_bounds (env : FastTextEnv) (llmB : Except Unit SupportedLanguage)
    (t : List Nat) (s : DetState) :
    0 ≤ ((hybridLanguageDetect env llmB t s).1).confidence ∧
    ((∀ out, env.identifyResult = Except.ok out → (out.score).getD 0 ≤ 1) →
      ((hybridLanguageDetect env llmB t s).1).confidence ≤ 1) ∧
    (0 ≤ (hybridLanguageDetectSync t).confidence ∧
      (hybridLanguageDetectSync t).confidence ≤ 1) ∧
    ((hybridLanguageDetect env llmB t s).1).language
      ∈ [SupportedLanguage.en, SupportedLanguage.de, SupportedLanguage.fr,
         SupportedLanguage.ja, SupportedLanguage.es, SupportedLanguage.zh] ∧
    (hybridLanguageDetectSync t).language
      ∈ [SupportedLanguage.en, SupportedLanguage.de, SupportedLanguage.fr,
         SupportedLanguage.ja, SupportedLanguage.es, SupportedLanguage.zh] := by
  refine ⟨?_, ?_, ?_, ?_, ?_⟩
  · rcases hybridLanguageDetect_result_cases env llmB t s with h | h | h | h
    · rw [h]
      norm_num
    · have := detectWithCharScan_conf h
      linarith [this.1]
    · obtain ⟨hgt, _, out, hid, hconf, _⟩ := detectWithFastText_some_spec h
      linarith [hgt]
    · rw [h]
      unfold detectWithLLM
      cases llmB <;> norm_num
  · intro hscore
    rcases hybridLanguageDetect_result_cases env llmB t s with h | h | h | h
    · rw [h]
      norm_num
    · exact (detectWithCharScan_conf h).2
    · obtain ⟨hgt, _, out, hid, hconf, _⟩ := detectWithFastText_some_spec h
      rw [hconf]
      exact hscore out hid
    · rw [h]
      unfold detectWithLLM
      cases llmB <;> norm_num
  · unfold hybridLanguageDetectSync
    cases hcs : detectWithCharScan t with
    | none => norm_num
    | some r =>
      have := detectWithCharScan_conf hcs
      constructor <;> linarith [this.1, this.2]
  · cases ((hybridLanguageDetect env llmB t s).1).language <;> simp
  · cases (hybridLanguageDetectSync t).language <;> simp

/-- Claim C9 witness: the bounds at the single-word input "h" with a
loaded statistical provider reporting score 0.9 (so the score hypothesis
of the upper bound is discharged non-vacuously) and a throwing remote
provider. -/
theorem claim9_bounds_witness :
    0 ≤ ((hybridLanguageDetect (ftConfidentEnv [0x65, 0x6E] 0.9) (Except.error ()) [0x68]
        initialDetState).1).confidence ∧
    ((hybridLanguageDetect (ftConfidentEnv [0x65, 0x6E] 0.9) (Except.error ()) [0x68]
        initialDetState).1).confidence ≤ 1 :=
  ⟨(claim9_bounds (ftConfidentEnv [0x65, 0x6E] 0.9) (Except.error ()) [0x68]
      initialDetState).1,
   (claim9_bounds (ftConfidentEnv [0x65, 0x6E] 0.9) (Except.error ()) [0x68]
      initialDetState).2.1
     (fun out h => by
       injection h with he
       subst he
       norm_num [Option.getD])⟩

/-- Claim C2, counterexample: on the bare word "in" with the statistical
provider unavailable and a working remote provider, the engine returns
the char-scan result {en, 0.8} and the LLM stage is never invoked (the
ghost counter stays 0) — the char-scan stage short-circuits before the
local-confidence gate is ever consulted. -/
theorem claim2_counterexample :
    ((hybridLanguageDetect ftUnavailableEnv (Except.ok SupportedLanguage.fr) [0x69, 0x6E]
        initialDetState).2).llmCalls = 0 ∧
    (hybridLanguageDetect ftUnavailableEnv (Except.ok SupportedLanguage.fr) [0x69, 0x6E]
        initialDetState).1 = ⟨SupportedLanguage.en, 0.8, DetMethod.charscan⟩ := by
  constructor <;>
    norm_num +decide [hybridLanguageDetect, hybridTail, hybridGate, detectWithFastText,
      checkFastTextAvailability, ftUnavailableEnv, initialDetState, jsTrim, isJsWhitespace,
      detectWithCharScan, getCharStats, scanCharacters, languageFilter,
      quickLanguageDetection, quickRule1, quickRule2, quickRule3, quickRule4,
      quickRule5, quickRule6, quickRule7, charScanFilterConfidence,
      isChineseChar, isJapaneseChar, isGermanChar, isFrenchChar, isSpanishChar,
      isSpanishAccentedChar, isAccentedChar, isBasicEnglishChar, min_def]

/-- Claim C2 (amended): the local-confidence estimate for the bare word
"in" is 0.3 < 0.7 as claimed, but `hybridLanguageDetect` never reaches
the remote gate for it: whenever the statistical stage yields nothing the
char-scan stage already returns {en, 0.8} and the LLM counter does not
move.  The remote stage is invoked for 1–2-token inputs on which the
char scan abstains, e.g. the Cyrillic word "да". -/
theorem claim2_amended :
    calculateLocalConfidence [0x69, 0x6E] (detectWithCharScan [0x69, 0x6E]) = 0.3 ∧
    (0.3 : ℚ) < 0.7 ∧
    (∀ (env : FastTextEnv) (llmB : Except Unit SupportedLanguage) (s : DetState),
      (detectWithFastText env s).1 = none →
      (hybridLanguageDetect env llmB [0x69, 0x6E] s).1
          = ⟨SupportedLanguage.en, 0.8, DetMethod.charscan⟩ ∧
      ((hybridLanguageDetect env llmB [0x69, 0x6E] s).2).llmCalls = s.llmCalls) ∧
    (∀ (env : FastTextEnv) (llmB : Except Unit SupportedLanguage) (s : DetState),
      (detectWithFastText env s).1 = none →
      (hybridLanguageDetect env llmB [0x434, 0x430] s).1 = (detectWithLLM llmB s).1 ∧
      ((hybridLanguageDetect env llmB [0x434, 0x430] s).2).llmCalls = s.llmCalls + 1) := by
  have hcsin : detectWithCharScan [0x69, 0x6E]
      = some ⟨SupportedLanguage.en, 0.8, DetMethod.charscan⟩ := by
    norm_num +decide [detectWithCharScan, getCharStats, scanCharacters, languageFilter,
      quickLanguageDetection, quickRule1, quickRule2, quickRule3, quickRule4,
      quickRule5, quickRule6, quickRule7, charScanFilterConfidence, jsTrim,
      isChineseChar, isJapaneseChar, isGermanChar, isFrenchChar, isSpanishChar,
      isSpanishAccentedChar, isAccentedChar, isBasicEnglishChar, isJsWhitespace, min_def]
  have hcscy : detectWithCharScan [0x434, 0x430] = none := by
    norm_num +decide [detectWithCharScan, getCharStats, scanCharacters, languageFilter,
      quickLanguageDetection, quickRule1, quickRule2, quickRule3, quickRule4,
      quickRule5, quickRule6, quickRule7, charScanFilterConfidence, jsTrim,
      isChineseChar, isJapaneseChar, isGermanChar, isFrenchChar, isSpanishChar,
      isSpanishAccentedChar, isAccentedChar, isBasicEnglishChar, isJsWhitespace]
  refine ⟨?_, by norm_num, ?_, ?_⟩
  · rw [hcsin]
    norm_num +decide [calculateLocalConfidence, localConfidenceBase, getCharStats,
      scanCharacters, wordCount, wordCountAux,
      isChineseChar, isJapaneseChar, isGermanChar, isFrenchChar, isSpanishChar,
      isAccentedChar, isJsWhitespace]
  · intro env llmB s hft
    rw [hybridLanguageDetect_ftNone env llmB [0x69, 0x6E] s (by decide) hft,
      hybridTail_charscan llmB [0x69, 0x6E] none _ hcsin (by norm_num)]
    exact ⟨rfl, detectWithFastText_llmCalls env s⟩
  · intro env llmB s hft
    have hlc : calculateLocalConfidence [0x434, 0x430] none < (0.7 : ℚ) := by
      norm_num +decide [calculateLocalConfidence, localConfidenceBase, getCharStats,
        scanCharacters, wordCount, wordCountAux,
        isChineseChar, isJapaneseChar, isGermanChar, isFrenchChar, isSpanishChar,
        isAccentedChar, isJsWhitespace]
    rw [hybridLanguageDetect_ftNone env llmB [0x434, 0x430] s (by decide) hft,
      hybridTail_csNone llmB [0x434, 0x430] none _ hcscy,
      hybridGate_llm llmB [0x434, 0x430] none none _ hlc]
    exact ⟨detectWithLLM_fst llmB _ s,
      by rw [detectWithLLM_llmCalls, detectWithFastText_llmCalls]⟩

/-- Claim C2 witness: the amended statement evaluated with an unavailable
statistical provider and the remote provider answering French. -/
theorem claim2_amended_witness :
    (hybridLanguageDetect ftUnavailableEnv (Except.ok SupportedLanguage.fr) [0x434, 0x430]
        initialDetState).1
      = (detectWithLLM (Except.ok SupportedLanguage.fr) initialDetState).1 ∧
    ((hybridLanguageDetect ftUnavailableEnv (Except.ok SupportedLanguage.fr) [0x434, 0x430]
        initialDetState).2).llmCalls = 1 :=
  claim2_amended.2.2.2 ftUnavailableEnv (Except.ok SupportedLanguage.fr) initialDetState
    (by decide)

/-- Claim C6: on a fresh state, if the dynamic import succeeds but the
model load fails on the first call (whose input passes the empty-input
guard), then exactly one load attempt is recorded, the adapter is marked
permanently unavailable, and across every later sequence of calls — with
arbitrary provider behaviours and inputs — the load-attempt count stays 1
and the availability flag stays `false`; on any such state the
statistical stage yields `null` immediately. -/
theorem claim6_no_reload (env1 : FastTextEnv) (llm1 : Except Unit SupportedLanguage)
    (t1 : List Nat) (h1 : env1.importResult = Except.ok true)
    (h2 : env1.loadResult = Except.error ()) (htrim : jsTrim t1 ≠ []) :
    ((hybridLanguageDetect env1 llm1 t1 initialDetState).2).loadAttempts = 1 ∧
    ((hybridLanguageDetect env1 llm1 t1 initialDetState).2).fastTextAvailable = some false ∧
    (∀ calls : List (FastTextEnv × Except Unit SupportedLanguage × List Nat),
      (runSeq calls (hybridLanguageDetect env1 llm1 t1 initialDetState).2).loadAttempts = 1 ∧
      (runSeq calls (hybridLanguageDetect env1 llm1 t1 initialDetState).2).fastTextAvailable
        = some false) ∧
    (∀ (env : FastTextEnv) (s : DetState), s.fastTextAvailable = some false →
      (detectWithFastText env s).1 = none) := by
  have hdf := detectWithFastText_loadFail env1 initialDetState h1 h2 rfl rfl
  have hfst : (detectWithFastText env1 initialDetState).1 = none := by rw [hdf]
  have heq := hybridLanguageDetect_ftNone env1 llm1 t1 initialDetState htrim hfst
  have hstate : (detectWithFastText env1 initialDetState).2 =
      { fastTextAvailable := some false, fastTextModel := false,
        loadAttempts := 1, llmCalls := 0, ftCalls := 1 } := by
    rw [hdf]
    rfl
  have hkey : ((hybridLanguageDetect env1 llm1 t1 initialDetState).2).loadAttempts = 1 ∧
      ((hybridLanguageDetect env1 llm1 t1 initialDetState).2).fastTextAvailable
        = some false := by
    rw [heq]
    rcases hybridTail_state llm1 t1 none (detectWithFastText env1 initialDetState).2
      with hst | hst <;> rw [hst, hstate] <;> exact ⟨rfl, rfl⟩
  refine ⟨hkey.1, hkey.2, ?_, ?_⟩
  · intro calls
    obtain ⟨ha, hl⟩ := runSeq_absorbing calls _ hkey.2
    exact ⟨hl.trans hkey.1, ha⟩
  · intro env s h
    rw [detectWithFastText_unavailable env s h]

/-- Claim C6 witness: a concrete first call (import succeeds, load
throws) on the single-letter input "h". -/
theorem claim6_no_reload_witness :
    ((hybridLanguageDetect ⟨Except.ok true, Except.error (), Except.error ()⟩
        (Except.error ()) [0x68] initialDetState).2).loadAttempts = 1 ∧
    ((hybridLanguageDetect ⟨Except.ok true, Except.error (), Except.error ()⟩
        (Except.error ()) [0x68] initialDetState).2).fastTextAvailable = some false := by
  have h := claim6_no_reload ⟨Except.ok true, Except.error (), Except.error ()⟩
    (Except.error ()) [0x68] rfl rfl (by decide)
  exact ⟨h.1, h.2.1⟩
